import Mathlib

/-!
Verification of `src/components/input/Checklist.js` from
dash-bootstrap-components: a stateless checklist component whose core logic
is a selection model (membership test and toggle over a caller-owned list of
values), a per-item renderer with a native/custom branch and style merging,
and a container renderer carrying a loading attribute.

The JavaScript is shallowly embedded: option/selection values become an
inductive `Val` (string or number, compared without coercion, as ramda's
`equals` does), ramda's `contains`/`without`/`append` are transcribed as
list functions, JSX output becomes record values, and JS object spread on
style objects becomes an association-list operation.
-/

set_option autoImplicit false

namespace Checklist

/-- A JavaScript primitive value as used for option values and labels: the
component's prop types restrict both to strings and numbers.  Equality on
this type never identifies a number with a string, matching ramda's
`equals` (strict, no coercion). -/
inductive Val where
  | str (s : String)
  | num (n : Int)
deriving DecidableEq

/-- String conversion of a value, as performed by the template literal
`` `_${id}-${option.value}` `` when the derived identifier is built. -/
def Val.toStr : Val → String
  | .str s => s
  | .num n => toString n

/-- One entry of the `options` prop: `{label, value, disabled}` where
`disabled` is optional (`undefined` when absent). -/
structure Opt where
  label : Val
  value : Val
  disabled : Option Bool
deriving DecidableEq

/-- ramda `contains(a, list)`: true when some element of `list` equals
`a` under `R.equals`. -/
def contains (a : Val) : List Val → Bool
  | [] => false
  | x :: xs => decide (x = a) || contains a xs

/-- ramda `without(xs, list)`: a new list with every element of `list`
that equals (under `R.equals`) a member of `xs` removed; the remaining
elements keep their relative order. -/
def without (xs : List Val) (l : List Val) : List Val :=
  l.filter (fun v => !contains v xs)

/-- ramda `append(a, list)`: a new list consisting of `list` followed by
`a`. -/
def append (a : Val) (l : List Val) : List Val := l ++ [a]

/-- Line 36: `const checked = contains(option.value, value)` — the
spec's `isChecked(option, selection)`. -/
def isChecked (option : Opt) (value : List Val) : Bool :=
  contains option.value value

/-- The `onChange` body of the `CustomInput` branch (custom mode,
lines 57–65): the `newValue` passed to `setProps({value: newValue})`. -/
def onChangeCustom (option : Opt) (value : List Val) : List Val :=
  if contains option.value value then without [option.value] value
  else append option.value value

/-- The `onChange` body of the native `<input>` branch (native mode,
lines 81–89): the `newValue` passed to `setProps({value: newValue})`. -/
def onChangeNative (option : Opt) (value : List Val) : List Val :=
  if contains option.value value then without [option.value] value
  else append option.value value

/-- The spec's `toggle(option, selection)`; the code computes it inline in
each onChange handler, identically in both branches. -/
def toggle (option : Opt) (value : List Val) : List Val :=
  onChangeNative option value

/-- A JS style object (e.g. `labelStyle`), embedded as an association list
of CSS property name / value pairs in insertion order; a JS object has at
most one entry per key. -/
abbrev Style := List (String × Val)

/-- First-match key lookup in a style object (JS property access). -/
def lookupStyle (s : Style) (k : String) : Option Val :=
  match s with
  | [] => none
  | (k2, v) :: rest => if k2 = k then some v else lookupStyle rest k

/-- JS object spread `{...a, ...b}`: the keys of `a` in order, each taking
`b`'s value when `b` also has the key, followed by the keys of `b` that
`a` lacks, in `b`'s order. -/
def spread (a b : Style) : Style :=
  a.map (fun p => (p.1, (lookupStyle b p.1).getD p.2)) ++
    b.filter (fun p => decide (lookupStyle a p.1 = none))

/-- Lines 38–40: `checked ? {...labelStyle, ...labelCheckedStyle} :
labelStyle`.  An absent `labelCheckedStyle` behaves as the empty object
(spreading `undefined` adds nothing). -/
def mergedLabelStyle (labelStyle labelCheckedStyle : Style) (checked : Bool) : Style :=
  if checked then spread labelStyle labelCheckedStyle else labelStyle

/-- The `classNames` utility on string arguments: falsy arguments (here
`false` from `checked && cls`, `undefined`, or the empty string, all
embedded as `""`) are skipped and the rest joined with single spaces. -/
def classNames (args : List String) : String :=
  String.intercalate " " (args.filter (fun s => decide (s ≠ "")))

/-- JS truthiness of the optional `id` prop as tested by `id && custom`:
`undefined` and the empty string are falsy. -/
def idTruthy : Option String → Bool
  | none => false
  | some s => decide (s ≠ "")

/-- The `loading_state` prop shape: all fields optional. -/
structure LoadingState where
  is_loading : Option Bool
  prop_name : Option String
  component_name : Option String
deriving DecidableEq

/-- The component's props after `defaultProps` resolution (`inputStyle: {}`,
`inputClassName: ''`, `labelStyle: {}`, `labelClassName: ''`,
`options: []`, `value: []`, `custom: true`).  `labelCheckedStyle` and
`labelCheckedClassName` have no default; their absence is embedded as the
empty style / empty string, which spread and `classNames` treat exactly
like `undefined`. -/
structure ChecklistProps where
  id : Option String
  options : List Opt
  value : List Val
  className : Option String
  style : Style
  key : Option String
  inputStyle : Style
  inputClassName : String
  labelStyle : Style
  labelCheckedStyle : Style
  labelClassName : String
  labelCheckedClassName : String
  inline : Bool
  switch : Bool
  custom : Bool
  loading_state : Option LoadingState
deriving DecidableEq

/-- The `type` prop handed to `CustomInput`: `switches ? 'switch' :
'checkbox'`. -/
inductive CtlType where
  | switch
  | checkbox
deriving DecidableEq

/-- The props Checklist passes to the external `CustomInput` component in
the custom branch (lines 43–67).  The source JSX lists `className` twice
on this element — first `inputClassName`, later the label classes — and
JSX keeps the last occurrence, so the single `className` field here holds
the label classes. -/
structure CustomInputProps where
  id : String
  checked : Bool
  className : String
  disabled : Bool
  type : CtlType
  label : Val
  labelStyle : Style
  inline : Bool
  key : Val
deriving DecidableEq

/-- The native branch's output (lines 69–103): a `div.form-check` holding
an `<input type="checkbox">` and a `<label>`. -/
structure NativeItem where
  divClassName : String
  key : Val
  inputChecked : Bool
  inputClassName : String
  inputDisabled : Bool
  inputStyle : Style
  labelStyle : Style
  labelClassName : String
  labelKey : Val
  label : Val
deriving DecidableEq

/-- What `listItem` renders for one option: either a delegated
`CustomInput` or the native markup. -/
inductive RenderedItem where
  | custom (props : CustomInputProps)
  | native (item : NativeItem)
deriving DecidableEq

/-- Whether an item took the custom rendering path. -/
def RenderedItem.isCustom : RenderedItem → Bool
  | .custom _ => true
  | .native _ => false

/-- The label style carried by a rendered item (`labelStyle` prop of
`CustomInput`, or the `style` of the native `<label>`). -/
def RenderedItem.labelStyleOf : RenderedItem → Style
  | .custom c => c.labelStyle
  | .native n => n.labelStyle

/-- The `type` of a rendered item: the custom control's kind, or `none`
for the native branch (whose input is always `type="checkbox"`). -/
def RenderedItem.ctlType : RenderedItem → Option CtlType
  | .custom c => some c.type
  | .native _ => none

/-- The `listItem(option)` method (lines 20–104), transcribed branch by
branch.  JS used: `id && custom` (truthiness of the id string),
`Boolean(option.disabled)` (`undefined` → `false`), the template literal
for the derived id, and last-occurrence wins for the duplicated JSX
`className` attribute on `CustomInput`. -/
def listItem (p : ChecklistProps) (option : Opt) : RenderedItem :=
  let checked := contains option.value p.value
  let merged := mergedLabelStyle p.labelStyle p.labelCheckedStyle checked
  if idTruthy p.id && p.custom then
    .custom
      { id := "_" ++ p.id.getD "" ++ "-" ++ option.value.toStr
        checked := checked
        className :=
          classNames [p.labelClassName,
            if checked then p.labelCheckedClassName else ""]
        disabled := option.disabled.getD false
        type := if p.switch then .switch else .checkbox
        label := option.label
        labelStyle := merged
        inline := p.inline
        key := option.value }
  else
    .native
      { divClassName :=
          classNames ["form-check", if p.inline then "form-check-inline" else ""]
        key := option.value
        inputChecked := checked
        inputClassName := classNames ["form-check-input", p.inputClassName]
        inputDisabled := option.disabled.getD false
        inputStyle := p.inputStyle
        labelStyle := merged
        labelClassName :=
          classNames ["form-check-label", p.labelClassName,
            if checked then p.labelCheckedClassName else ""]
        labelKey := option.value
        label := option.label }

/-- The container `<div>` produced by `render` (lines 106–126).
`dataDashIsLoading` is the value of the `data-dash-is-loading` attribute:
`none` embeds JS `undefined`, i.e. the attribute is absent. -/
structure ContainerNode where
  id : Option String
  style : Style
  className : Option String
  key : Option String
  dataDashIsLoading : Option Bool
  children : List RenderedItem
deriving DecidableEq

/-- The `render` method: maps `options` through `listItem` and wraps the
items in a container div carrying
`data-dash-is-loading={(loading_state && loading_state.is_loading) || undefined}`:
`undefined` unless `loading_state` is present with a truthy `is_loading`,
in which case the value is `true`. -/
def renderChecklist (p : ChecklistProps) : ContainerNode :=
  { id := p.id
    style := p.style
    className := p.className
    key := p.key
    dataDashIsLoading :=
      match p.loading_state with
      | none => none
      | some l => if l.is_loading.getD false then some true else none
    children := p.options.map (listItem p) }

/-- A heap of JS arrays: cell `r` of `h` holds `h.cells.getD r []`, and
allocation appends a fresh cell.  Used to state that the toggle
computation never writes to the selection array it is given. -/
structure Heap where
  cells : List (List Val)
deriving DecidableEq

/-- Contents of the array referenced by `r`. -/
def Heap.read (h : Heap) (r : Nat) : List Val := h.cells.getD r []

/-- Allocate a fresh array with contents `v`; returns its reference. -/
def Heap.alloc (h : Heap) (v : List Val) : Nat × Heap :=
  (h.cells.length, ⟨h.cells ++ [v]⟩)

/-- ramda `append` at the heap level: reads the input array and allocates
a new array for the result (ramda never mutates its argument; `append` is
`concat(list, [el])` on a copy). -/
def appendRef (a : Val) (r : Nat) (h : Heap) : Nat × Heap :=
  h.alloc (append a (h.read r))

/-- ramda `without` at the heap level: reads the input array and allocates
a new array holding the filtered copy. -/
def withoutRef (xs : List Val) (r : Nat) (h : Heap) : Nat × Heap :=
  h.alloc (without xs (h.read r))

/-- The onChange computation acting on a heap: `value` is a reference to
the selection array, and the branch taken mirrors lines 81–89. -/
def onChangeRef (option : Opt) (r : Nat) (h : Heap) : Nat × Heap :=
  if contains option.value (h.read r) then withoutRef [option.value] r h
  else appendRef option.value r h

/-- A sample option, `{label: "A", value: 1}`. -/
def sampleOption : Opt := ⟨Val.str "A", Val.num 1, none⟩

/-- A props record with every default in place and no id: the native
rendering configuration. -/
def nativeProps : ChecklistProps :=
  { id := none
    options := [sampleOption]
    value := []
    className := none
    style := []
    key := none
    inputStyle := []
    inputClassName := ""
    labelStyle := []
    labelCheckedStyle := []
    labelClassName := ""
    labelCheckedClassName := ""
    inline := false
    switch := false
    custom := true
    loading_state := none }

/-- A custom-mode configuration: `id="grp"` with the `custom` default. -/
def customProps : ChecklistProps :=
  { nativeProps with id := some "grp" }

/-- A custom-mode configuration that supplies both an input class and a
label class, to observe which one `CustomInput` receives. -/
def bugProps : ChecklistProps :=
  { nativeProps with
      id := some "grp"
      inputClassName := "my-input"
      labelClassName := "lbl" }

/-- A one-cell heap whose cell 0 holds the selection `[1]`. -/
def sampleHeap : Heap := ⟨[[Val.num 1]]⟩

theorem contains_iff_mem (a : Val) (l : List Val) :
    contains a l = true ↔ a ∈ l := by
  induction l with
  | nil => simp [contains]
  | cons x xs ih =>
    simp only [contains, Bool.or_eq_true, decide_eq_true_eq, ih, List.mem_cons]
    constructor
    · rintro (h | h)
      · exact Or.inl h.symm
      · exact Or.inr h
    · rintro (h | h)
      · exact Or.inl h.symm
      · exact Or.inr h

theorem contains_eq_false_iff (a : Val) (l : List Val) :
    contains a l = false ↔ a ∉ l := by
  rw [← Bool.not_eq_true, not_iff_not, contains_iff_mem]

theorem toggle_eq (option : Opt) (value : List Val) :
    toggle option value =
      if option.value ∈ value then
        value.filter (fun v => decide (v ≠ option.value))
      else value ++ [option.value] := by
  unfold toggle onChangeNative
  by_cases h : option.value ∈ value
  · rw [if_pos ((contains_iff_mem _ _).mpr h), if_pos h]
    unfold without
    refine List.filter_congr ?_
    intro v _
    simp [contains, eq_comm]
  · rw [if_neg (by simpa using (contains_eq_false_iff _ _).mpr h), if_neg h]
    rfl

theorem mem_toggle (a : Val) (option : Opt) (value : List Val) :
    a ∈ toggle option value ↔
      if option.value ∈ value then a ∈ value ∧ a ≠ option.value
      else a ∈ value ∨ a = option.value := by
  rw [toggle_eq]
  by_cases h : option.value ∈ value
  · simp [h]
  · simp [h]

theorem lookupStyle_append (l1 l2 : Style) (k : String) :
    lookupStyle (l1 ++ l2) k =
      match lookupStyle l1 k with
      | some v => some v
      | none => lookupStyle l2 k := by
  induction l1 with
  | nil => simp [lookupStyle]
  | cons p rest ih =>
    obtain ⟨k2, v⟩ := p
    by_cases h : k2 = k
    · simp [lookupStyle, h]
    · simp only [List.cons_append, lookupStyle, if_neg h]
      exact ih

theorem lookupStyle_map_override (a b : Style) (k : String) :
    lookupStyle (a.map (fun p => (p.1, (lookupStyle b p.1).getD p.2))) k =
      (lookupStyle a k).map (fun v => (lookupStyle b k).getD v) := by
  induction a with
  | nil => simp [lookupStyle]
  | cons p rest ih =>
    obtain ⟨k2, v⟩ := p
    by_cases h : k2 = k
    · subst h
      simp [lookupStyle]
    · simp only [List.map_cons, lookupStyle, if_neg h, ih]

theorem lookupStyle_filter_notin (a b : Style) (k : String)
    (hk : lookupStyle a k = none) :
    lookupStyle (b.filter (fun p => decide (lookupStyle a p.1 = none))) k =
      lookupStyle b k := by
  induction b with
  | nil => rfl
  | cons p rest ih =>
    obtain ⟨k1, v1⟩ := p
    by_cases hp : lookupStyle a k1 = none
    · rw [List.filter_cons, if_pos (by simpa using hp)]
      by_cases h : k1 = k
      · simp [lookupStyle, h]
      · simp only [lookupStyle, if_neg h, ih]
    · rw [List.filter_cons, if_neg (by simpa using hp)]
      have h : k1 ≠ k := fun e => hp (e ▸ hk)
      simp only [lookupStyle, if_neg h, ih]

theorem lookupStyle_spread (a b : Style) (k : String) :
    lookupStyle (spread a b) k =
      match lookupStyle b k with
      | some v => some v
      | none => lookupStyle a k := by
  unfold spread
  rw [lookupStyle_append, lookupStyle_map_override]
  cases ha : lookupStyle a k with
  | none =>
    rw [Option.map_none']
    rw [lookupStyle_filter_notin a b k ha]
    cases lookupStyle b k <;> simp [ha]
  | some v =>
    rw [Option.map_some']
    cases lookupStyle b k <;> simp

theorem Heap.read_alloc_old (h : Heap) (v : List Val) (r : Nat)
    (hr : r < h.cells.length) : ((h.alloc v).2).read r = h.read r := by
  unfold Heap.alloc Heap.read
  exact List.getD_append _ _ _ _ hr

theorem Heap.read_alloc_new (h : Heap) (v : List Val) :
    ((h.alloc v).2).read (h.alloc v).1 = v := by
  unfold Heap.alloc Heap.read
  simp [List.getD_eq_getElem?_getD, List.getElem?_concat_length]

theorem onChangeRef_eq (option : Opt) (r : Nat) (h : Heap) :
    onChangeRef option r h = h.alloc (toggle option (h.read r)) := by
  unfold onChangeRef withoutRef appendRef toggle onChangeNative
  cases hc : contains option.value (h.read r) <;> simp [hc]

theorem contains_eq_decide (a : Val) (l : List Val) :
    contains a l = decide (a ∈ l) := by
  by_cases h : a ∈ l
  · simp [h, (contains_iff_mem a l).mpr h]
  · simp [h, (contains_eq_false_iff a l).mpr h]

/-- C1: `toggle(option, selection)` returns `selection` with every
occurrence of `option.value` removed (relative order of the remaining
elements preserved) when `option.value` is a member, and `selection` with
`option.value` appended at the end otherwise. -/
theorem toggle_removes_all_occurrences_or_appends (option : Opt) (selection : List Val) :
    toggle option selection =
      if option.value ∈ selection then
        selection.filter (fun v => decide (v ≠ option.value))
      else selection ++ [option.value] :=
  toggle_eq option selection

/-- C2 (code bug): in custom mode the source sets `className` twice on the
`CustomInput` element — `inputClassName` first, the merged label classes
second — and JSX keeps the last occurrence, so the class that reaches the
custom control is the merged label class, not `inputClassName`.  At the
concrete configuration `bugProps` (id `"grp"`, `inputClassName "my-input"`,
`labelClassName "lbl"`) the rendered custom control carries
`className = "lbl"`, which differs from the supplied input class. -/
theorem customInput_receives_label_class_not_input_class :
    listItem bugProps sampleOption =
      RenderedItem.custom
        { id := "_grp-1"
          checked := false
          className := "lbl"
          disabled := false
          type := CtlType.checkbox
          label := Val.str "A"
          labelStyle := []
          inline := false
          key := Val.num 1 }
    ∧ "lbl" ≠ bugProps.inputClassName := by
  exact ⟨rfl, by decide⟩

/-- C3: for every option and selection, checked-membership after a toggle
is the boolean negation of checked-membership before it. -/
theorem isChecked_toggle_negates (option : Opt) (selection : List Val) :
    isChecked option (toggle option selection) = !(isChecked option selection) := by
  unfold isChecked
  rw [contains_eq_decide, contains_eq_decide]
  by_cases h : option.value ∈ selection
  · have h2 : option.value ∉ toggle option selection := by
      rw [mem_toggle]
      simp [h]
    simp [h, h2]
  · have h2 : option.value ∈ toggle option selection := by
      rw [mem_toggle]
      simp [h]
    simp [h, h2]

/-- C4: an item takes the custom rendering path exactly when the id prop
is set (present and non-empty, the truthiness `id && custom` tests) and
the `custom` flag is true; outside custom mode the `switch` flag has no
effect on the rendered output, and inside custom mode it selects the
`switch` versus `checkbox` control kind. -/
theorem custom_mode_iff_id_and_custom (p : ChecklistProps) (option : Opt) (b1 b2 : Bool) :
    ((listItem p option).isCustom = (idTruthy p.id && p.custom))
    ∧ ((idTruthy p.id && p.custom) = false →
        listItem { p with switch := b1 } option = listItem { p with switch := b2 } option)
    ∧ ((idTruthy p.id && p.custom) = true →
        (listItem { p with switch := b1 } option).ctlType =
          some (if b1 then CtlType.switch else CtlType.checkbox)) := by
  refine ⟨?_, ?_, ?_⟩
  · cases hbr : idTruthy p.id && p.custom <;>
      simp [listItem, hbr, RenderedItem.isCustom]
  · intro hbr
    simp [listItem, hbr]
  · intro hbr
    simp [listItem, hbr, RenderedItem.ctlType]

/-- Witness for C4 at concrete inputs: `nativeProps` (no id) renders
native and ignores the switch flag; `customProps` with `switch := true`
selects the switch control kind. -/
theorem custom_mode_iff_id_and_custom_witness :
    (listItem nativeProps sampleOption).isCustom = (idTruthy nativeProps.id && nativeProps.custom)
    ∧ listItem { nativeProps with switch := true } sampleOption =
        listItem { nativeProps with switch := false } sampleOption
    ∧ (listItem { customProps with switch := true } sampleOption).ctlType =
        some (if true then CtlType.switch else CtlType.checkbox) := by
  have h1 := custom_mode_iff_id_and_custom nativeProps sampleOption true false
  have h2 := custom_mode_iff_id_and_custom customProps sampleOption true false
  exact ⟨h1.1, h1.2.1 (by decide), h2.2.2 (by decide)⟩

/-- C5: the merged label style of every rendered item overlays the checked
style on the base style key-wise when the item is checked (checked keys
win) and is the base style unchanged otherwise; on the spec's example,
base `{a:1}` with overlay `{a:2,b:3}` gives `{a:2,b:3}` checked and
`{a:1}` unchecked. -/
theorem mergedLabelStyle_checked_overlay (p : ChecklistProps) (option : Opt)
    (base ov : Style) (k : String) :
    ((listItem p option).labelStyleOf =
        mergedLabelStyle p.labelStyle p.labelCheckedStyle (isChecked option p.value))
    ∧ (lookupStyle (mergedLabelStyle base ov true) k =
        match lookupStyle ov k with
        | some v => some v
        | none => lookupStyle base k)
    ∧ mergedLabelStyle base ov false = base
    ∧ mergedLabelStyle [("a", Val.num 1)] [("a", Val.num 2), ("b", Val.num 3)] true
        = [("a", Val.num 2), ("b", Val.num 3)]
    ∧ mergedLabelStyle [("a", Val.num 1)] [("a", Val.num 2), ("b", Val.num 3)] false
        = [("a", Val.num 1)] := by
  refine ⟨?_, ?_, rfl, rfl, rfl⟩
  · cases hbr : idTruthy p.id && p.custom <;>
      simp [listItem, hbr, RenderedItem.labelStyleOf, isChecked]
  · rw [show mergedLabelStyle base ov true = spread base ov from rfl]
    exact lookupStyle_spread base ov k

/-- C6: the container's `data-dash-is-loading` attribute is `true` exactly
when a `loading_state` is supplied with `is_loading = true`, and in every
other case the attribute is absent (`undefined`), never `false`. -/
theorem loading_attribute_present_iff (p : ChecklistProps) :
    ((renderChecklist p).dataDashIsLoading = some true
      ↔ ∃ l, p.loading_state = some l ∧ l.is_loading = some true)
    ∧ ((renderChecklist p).dataDashIsLoading = some true
      ∨ (renderChecklist p).dataDashIsLoading = none) := by
  unfold renderChecklist
  cases hls : p.loading_state with
  | none => simp
  | some l =>
    cases hil : l.is_loading with
    | none => simp [hil]
    | some b => cases b <;> simp [hil]

/-- C7: toggling the same option twice yields a selection that is
set-equal to the original: membership is unchanged for every value,
though the order may differ. -/
theorem toggle_toggle_set_equal (option : Opt) (selection : List Val) (x : Val) :
    x ∈ toggle option (toggle option selection) ↔ x ∈ selection := by
  by_cases h : option.value ∈ selection
  · have h2 : option.value ∉ toggle option selection := by
      rw [mem_toggle]
      simp [h]
    rw [mem_toggle, if_neg h2, mem_toggle, if_pos h]
    constructor
    · rintro (⟨hx, _⟩ | rfl)
      · exact hx
      · exact h
    · intro hx
      by_cases hxv : x = option.value
      · exact Or.inr hxv
      · exact Or.inl ⟨hx, hxv⟩
  · have h2 : option.value ∈ toggle option selection := by
      rw [mem_toggle]
      simp [h]
    rw [mem_toggle, if_pos h2, mem_toggle, if_neg h]
    constructor
    · rintro ⟨hx | rfl, hne⟩
      · exact hx
      · exact absurd rfl hne
    · intro hx
      refine ⟨Or.inl hx, ?_⟩
      rintro rfl
      exact h hx

/-- C8: `isChecked` holds exactly on membership of `option.value` in the
selection, under value equality that never coerces numbers and strings
into each other: the number `1` is not checked by the string `"1"` and
vice versa. -/
theorem isChecked_membership_no_coercion (option : Opt) (selection : List Val) :
    (isChecked option selection = true ↔ option.value ∈ selection)
    ∧ isChecked ⟨Val.num 1, Val.num 1, none⟩ [Val.str "1"] = false
    ∧ isChecked ⟨Val.str "1", Val.str "1", none⟩ [Val.num 1] = false :=
  ⟨contains_iff_mem option.value selection, rfl, rfl⟩

/-- C9: run on a heap of JS arrays, the onChange computation reads the
selection array and allocates a fresh array for its result: the input
cell's contents are unchanged, the returned reference is distinct from the
input reference, and the fresh cell holds exactly `toggle` of the input
contents. -/
theorem onChangeRef_preserves_input (option : Opt) (r : Nat) (h : Heap)
    (hr : r < h.cells.length) :
    ((onChangeRef option r h).2.read r = h.read r)
    ∧ (onChangeRef option r h).1 ≠ r
    ∧ (onChangeRef option r h).2.read (onChangeRef option r h).1 =
        toggle option (h.read r) := by
  rw [onChangeRef_eq]
  refine ⟨Heap.read_alloc_old h _ r hr, ?_, Heap.read_alloc_new h _⟩
  show h.cells.length ≠ r
  intro e
  rw [← e] at hr
  exact absurd hr (lt_irrefl _)

/-- Witness for C9: toggling option value `1` against the one-cell heap
holding `[1]` at reference `0` leaves cell `0` at `[1]`, returns the fresh
reference, and the fresh cell holds the empty selection. -/
theorem onChangeRef_preserves_input_witness :
    (0 < sampleHeap.cells.length)
    ∧ (((onChangeRef sampleOption 0 sampleHeap).2.read 0 = sampleHeap.read 0)
      ∧ (onChangeRef sampleOption 0 sampleHeap).1 ≠ 0
      ∧ (onChangeRef sampleOption 0 sampleHeap).2.read
          (onChangeRef sampleOption 0 sampleHeap).1 =
            toggle sampleOption (sampleHeap.read 0)) :=
  ⟨by decide, onChangeRef_preserves_input sampleOption 0 sampleHeap (by decide)⟩

/-- C10: the onChange computation duplicated in the custom-mode branch and
the native-mode branch produce the same new selection on every input, so
the value reported to `setProps` is independent of rendering mode. -/
theorem onChangeCustom_eq_onChangeNative (option : Opt) (value : List Val) :
    onChangeCustom option value = onChangeNative option value := rfl

end Checklist
